import Mathlib

/-!
Verification of the BioMedGraphica web-app identifier-resolution pipeline.

The definitions below are a shallow embedding of the Python backend:
`backend/tasks/steps.py` (orchestrated task units), `backend/hard_match.py`
(deterministic resolution), `backend/service/soft_match.py` (confirmed-mapping
resolution), `backend/service/finalize.py` (merge and edge filtering) and
`backend/api/processing.py` (mapping submission endpoint).  Pandas data frames
are modelled as lists of rows; file contents are passed in as data; the side
effects that matter to the claims (files written, task-status writes) are
returned as explicit values.
-/

namespace BMG

/-! String helpers mirroring the Python string operations used by the code:
`str.split(";")`, `str.strip`, `str.lower`, `";".join`, `sorted`. -/

/-- splitSemiAux walks the character list, cutting at every semicolon. -/
def splitSemiAux : List Char → List Char → List String
  | [], cur => [String.mk cur.reverse]
  | c :: rest, cur =>
    if c = ';' then String.mk cur.reverse :: splitSemiAux rest []
    else splitSemiAux rest (c :: cur)

/-- splitSemi models Python `s.split(";")`. -/
def splitSemi (s : String) : List String :=
  splitSemiAux s.data []

/-- stripStr models Python `s.strip()` (drop leading/trailing whitespace). -/
def stripStr (s : String) : String :=
  String.mk (((s.data.dropWhile Char.isWhitespace).reverse.dropWhile Char.isWhitespace).reverse)

/-- lowerStr models Python `s.lower()`. -/
def lowerStr (s : String) : String :=
  String.mk (s.data.map Char.toLower)

/-- joinSemi models Python `";".join(l)`. -/
def joinSemi : List String → String
  | [] => ""
  | [x] => x
  | x :: xs => x ++ ";" ++ joinSemi xs

/-- charListLe is code-point lexicographic comparison of character lists,
the order Python's `sorted` uses on strings. -/
def charListLe : List Char → List Char → Bool
  | [], _ => true
  | _ :: _, [] => false
  | a :: as, b :: bs =>
    if a < b then true else if b < a then false else charListLe as bs

/-- strLe is the string order used by the Python code's `sorted` calls. -/
def strLe (a b : String) : Prop :=
  charListLe a.data b.data = true

instance : DecidableRel strLe := fun a b => by
  unfold strLe; infer_instance

/-- sortStr models Python `sorted` on a list of strings. -/
def sortStr (l : List String) : List String :=
  l.insertionSort strLe

/-- dedupFirstAux keeps the elements not yet seen, first occurrence first. -/
def dedupFirstAux {α : Type} [DecidableEq α] (seen : List α) : List α → List α
  | [] => []
  | x :: xs =>
    if x ∈ seen then dedupFirstAux seen xs
    else x :: dedupFirstAux (x :: seen) xs

/-- dedupFirst models pandas `drop_duplicates` / Python `set` collection:
keep the first occurrence of every element. -/
def dedupFirst {α : Type} [DecidableEq α] (l : List α) : List α :=
  dedupFirstAux [] l

/-! Sample Reconciler (`compute_common_id_task` in `backend/tasks/steps.py`).
A config is modelled by the fields the reconciler reads: the `fill0` flag, the
`entity_type` string, and the first column of its input file (already read as
strings, as `read_sample_ids_for_entity` does). -/

structure EntityCfg where
  feature_label : String
  entity_type : String
  fill0 : Bool
  fileSamples : List String
deriving DecidableEq

/-- isEligible holds for the configs whose sample column participates in the
intersection: not fill0 and not the label entity. -/
def isEligible (c : EntityCfg) : Bool :=
  !c.fill0 && (lowerStr c.entity_type != "label")

def eligibleCfgs (cfgs : List EntityCfg) : List EntityCfg :=
  cfgs.filter isEligible

/-- interAll models `set.intersection(*sample_sets)` over the listed sets
(as lists; multiplicity is irrelevant after deduplication). -/
def interAll : List (List String) → List String
  | [] => []
  | s :: rest => s.filter (fun x => rest.all (fun t => decide (x ∈ t)))

/-- compute_common_ids models `compute_common_id_task`:
collect the sample sets of the eligible configs, raise if there are none,
otherwise return the sorted deduplicated intersection. -/
def compute_common_ids (cfgs : List EntityCfg) : Except String (List String) :=
  let sets := (eligibleCfgs cfgs).map (fun c => c.fileSamples)
  if sets.isEmpty then
    .error "No valid input files found to compute sample ID intersection."
  else
    .ok (sortStr (dedupFirst (interAll sets)))

/-! Hard-Match Resolver (`process_entity_hard_match` in `backend/hard_match.py`).
The reference table (`BioMedGraphica_Conn_<Type>.csv`) is a list of rows with
the `id_type` cell (None models NaN) and the canonical `BioMedGraphica_Conn_ID`.
An input file is its first (sample) column plus one list of cell values per
feature column; a cell is `Option Rat` (None models a value that is NaN /
fails numeric coercion). -/

structure RefRow where
  idCell : Option String
  connId : String
deriving DecidableEq

abbrev EntityTable := List RefRow

/-- bmgIds models `entity_data["BioMedGraphica_Conn_ID"].drop_duplicates().tolist()`. -/
def bmgIds (tbl : EntityTable) : List String :=
  dedupFirst (tbl.map (fun r => r.connId))

structure InputFile where
  samples : List String
  cols : List (String × List (Option Rat))
deriving DecidableEq

/-- meltFile models `df.melt(id_vars="Sample_ID", ...)`: one long row
`(sample, original_id, value)` per (feature column, sample) pair. -/
def meltFile (f : InputFile) : List (String × String × Option Rat) :=
  (f.cols.map (fun c => (f.samples.zip c.2).map (fun p => (p.1, c.1, p.2)))).flatten

/-- usedIds models `set(df.columns) - {"Sample_ID"}` (membership only). -/
def usedIds (f : InputFile) : List String :=
  f.cols.map Prod.fst

/-- mappingPairsAll models the dropna / strip / split-on-";" / explode / strip
steps building `mapping_expanded` from the reference table. -/
def mappingPairsAll (tbl : EntityTable) : List (String × String) :=
  ((tbl.filterMap (fun r => r.idCell.map (fun c => (stripStr c, r.connId)))).map
    (fun p => (splitSemi p.1).map (fun piece => (stripStr piece, p.2)))).flatten

/-- mappingPairs models `mapping_df`: the exploded pairs restricted to the
original IDs used as columns of the input file, with duplicates dropped. -/
def mappingPairs (tbl : EntityTable) (used : List String) : List (String × String) :=
  dedupFirst ((mappingPairsAll tbl).filter (fun p => used.contains p.1))

/-- mergeJoin models `pd.merge(melted, mapping_df, on="Original_ID", how="inner")`,
producing `(sample, conn_id, value)` rows. -/
def mergeJoin (melted : List (String × String × Option Rat))
    (mapping : List (String × String)) : List (String × String × Option Rat) :=
  (melted.map (fun m => (mapping.filter (fun p => p.1 == m.2.1)).map
    (fun p => (m.1, p.2, m.2.2)))).flatten

/-- pivotEntry models one cell of
`merged.pivot_table(index="Sample_ID", columns=conn, values="value", fill_value=0)`
followed by `reindex(..., fill_value=0)`: the mean of the numeric values of the
group, 0 when the group has no numeric value. -/
def pivotEntry (merged : List (String × String × Option Rat)) (s c : String) : Rat :=
  let vals := (merged.filter (fun r => r.1 == s && r.2.1 == c)).filterMap (fun r => r.2.2)
  if vals.isEmpty then 0 else vals.sum / vals.length

/-- hardMatchExpr is the reindexed pivot `expr` of `process_entity_hard_match`:
rows labelled by `sample_ids` in order, columns by `bmgIds` in order. -/
def hardMatchExpr (tbl : EntityTable) (f : InputFile) (sampleIds : List String) :
    List (String × List Rat) :=
  let merged := mergeJoin (meltFile f) (mappingPairs tbl (usedIds f))
  sampleIds.map (fun s => (s, (bmgIds tbl).map (fun c => pivotEntry merged s c)))

/-- groupedOrigIds models the `groupby("BioMedGraphica_Conn_ID")["Original_ID"]`
aggregation: the semicolon-join of the sorted distinct non-blank original IDs
mapped to the given canonical ID. -/
def groupedOrigIds (mapping : List (String × String)) (c : String) : String :=
  joinSemi (sortStr ((dedupFirst ((mapping.filter (fun p => p.2 == c)).map Prod.fst)).filter
    (fun s => stripStr s != "")))

/-- finalRawIdMapping models `final_mapping_df`: one row per canonical ID (left
merge of the full ID list with the grouped mapping, blanks filled with ""). -/
def finalRawIdMapping (ids : List String) (mapping : List (String × String)) :
    List (String × String) :=
  ids.map (fun c => (c, groupedOrigIds mapping c))

/-- fill0Expr models the virtual branch `pd.DataFrame(0, index=sample_ids, columns=bmg_ids)`. -/
def fill0Expr (tbl : EntityTable) (sampleIds : List String) : List (String × List Rat) :=
  sampleIds.map (fun s => (s, (bmgIds tbl).map (fun _ => (0 : Rat))))

/-- fill0Mapping models the virtual branch mapping frame: every canonical ID
paired with the empty original-ID string. -/
def fill0Mapping (tbl : EntityTable) : List (String × String) :=
  (bmgIds tbl).map (fun c => (c, ""))

structure HardMatchOutput where
  matrix : List (String × List Rat)
  rawIdMap : List (String × String)
deriving DecidableEq

/-- process_entity_hard_match models the two output artifacts (`_x/<label>.npy`
with its row labels still visible, and `raw_id_mapping/<label>_id_map.csv`) of
the Python function of the same name. -/
def process_entity_hard_match (tbl : EntityTable) (f : InputFile) (fill0 : Bool)
    (sampleIds : List String) : HardMatchOutput :=
  if fill0 then
    ⟨fill0Expr tbl sampleIds, fill0Mapping tbl⟩
  else
    ⟨hardMatchExpr tbl f sampleIds,
     finalRawIdMapping (bmgIds tbl) (mappingPairs tbl (usedIds f))⟩

/-! Label Resolver and task units (`run_label_task`, `run_hard_match_task` in
`backend/tasks/steps.py`).  A unit returns its structured result dict; the
`update_task_status` calls it performs are returned as an explicit list of
status writes. -/

structure LabelFile where
  samples : List String
  cols : List (List (Option Rat))
deriving DecidableEq

structure LabelCfg where
  feature_label : String
  entity_type : String
  label_type : String
  file : LabelFile
deriving DecidableEq

/-- labelValueFor models the value the label pipeline assigns to one sample:
restrict to the label column, look the sample up (first occurrence, as a
unique pandas index), `reindex` + `fillna(0)` turn a missing sample or a NaN
cell into 0. -/
def labelValueFor (lf : LabelFile) (s : String) : Rat :=
  match lf.cols with
  | [] => 0
  | c0 :: _ => ((((lf.samples.zip c0).find? (fun p => p.1 == s)).bind Prod.snd).getD 0)

/-- labelVector models the saved `_y/<label>.npy` vector: the label column
reindexed to the common sample list. -/
def labelVector (lf : LabelFile) (common : List String) : List Rat :=
  common.map (labelValueFor lf)

structure UnitResult where
  feature_label : String
  status : String
  error : Option String
deriving DecidableEq

structure StatusWrite where
  id : String
  status : String
deriving DecidableEq

/-- run_label_task models the binary-label unit: its result dict, the
`update_task_status(job_id, "failed", ...)` writes it performs, and the label
vector it saves on success. -/
def run_label_task (cfg : LabelCfg) (jobId : String) (common : List String) :
    UnitResult × List StatusWrite × Option (List Rat) :=
  if cfg.label_type == "binary" then
    if lowerStr cfg.entity_type != "label" then
      (⟨cfg.feature_label, "error", some "Invalid entity_type for label"⟩,
        [⟨jobId, "failed"⟩], none)
    else if cfg.file.cols.isEmpty then
      (⟨cfg.feature_label, "error",
         some "Label file must contain at least two columns (sample ID + label)"⟩,
        [⟨jobId, "failed"⟩], none)
    else
      (⟨cfg.feature_label, "success", none⟩, [], some (labelVector cfg.file common))
  else
    (⟨cfg.feature_label, "error", some ("Unknown label_type: " ++ cfg.label_type)⟩,
      [⟨jobId, "failed"⟩], none)

/-- resolveHard models `process_entity_hard_match` including its failure mode:
a missing reference table raises `FileNotFoundError`. -/
def resolveHard (db : Option EntityTable) (f : InputFile) (fill0 : Bool)
    (sampleIds : List String) : Except String HardMatchOutput :=
  match db with
  | none => .error "Mapping file not found"
  | some tbl => .ok (process_entity_hard_match tbl f fill0 sampleIds)

/-- run_hard_match_task models the hard-match unit: any exception from the
resolver is caught and turned into a structured error result; the unit never
writes a task status. -/
def run_hard_match_task (db : Option EntityTable) (feature_label : String)
    (f : InputFile) (fill0 : Bool) (common : List String) :
    UnitResult × List StatusWrite :=
  match resolveHard db f fill0 common with
  | .ok _ => (⟨feature_label, "success", none⟩, [])
  | .error e => (⟨feature_label, "error", some e⟩, [])

/-! Soft-Match Resolver, apply phase (`apply_soft_match_selection` in
`backend/service/soft_match.py`).  The entity type's embedding keys
(`embeddings.keys()`) stand in for the loaded embeddings; the artifacts the
function writes are returned in write order. -/

inductive Artifact
  | rawIdMap (rows : List (String × String))
  | matrix (rows : List (List Rat))
  | nameDesc
deriving DecidableEq

structure SoftResult where
  feature_label : String
  mapped_count : Nat
  status : String
  error : Option String
  message : Option String
deriving DecidableEq

/-- selectedPairs models building `mapping_df` from `user_selections`: keep
the pairs whose selected ID is truthy (not None and not the empty string). -/
def selectedPairs (sel : List (String × Option String)) : List (String × String) :=
  sel.filterMap (fun p => match p.2 with
    | some b => if b == "" then none else some (p.1, b)
    | none => none)

/-- softCoerced models `pd.to_numeric(merged["value"], errors="coerce")`
followed by `dropna(subset=["value"])`: the merged rows whose value survives
numeric coercion. -/
def softCoerced (f : InputFile) (mapping : List (String × String)) :
    List (String × String × Rat) :=
  (mergeJoin (meltFile f) mapping).filterMap
    (fun r => r.2.2.map (fun v => (r.1, r.2.1, v)))

/-- softDroppedCount counts the merged rows dropped by numeric coercion (a
quantity the code computes implicitly and does not report). -/
def softDroppedCount (f : InputFile) (mapping : List (String × String)) : Nat :=
  (mergeJoin (meltFile f) mapping).length - (softCoerced f mapping).length

/-- softPivotEntry models one cell of the soft-match
`pivot_table(..., fill_value=0, aggfunc="mean")` after `reindex(..., fill_value=0)`. -/
def softPivotEntry (coerced : List (String × String × Rat)) (s c : String) : Rat :=
  let vals := (coerced.filter (fun r => r.1 == s && r.2.1 == c)).map (fun r => r.2.2)
  if vals.isEmpty then 0 else vals.sum / vals.length

/-- apply_soft_match_selection models the Python function of the same name:
`Except.ok` carries the returned result dict together with the artifacts
written, in write order; `Except.error` models an uncaught exception.  With an
empty confirmed mapping, `pd.DataFrame([])` is a column-less empty frame, so
the `mapping_df.groupby("BioMedGraphica_Conn_ID")` that builds the grouped
mapping raises `KeyError` before any artifact is written — the
`if mapping_df.empty` zero-matrix fallback below it is unreachable.  On the
non-empty paths the raw-id-mapping CSV is written first, the matrix only on
success, and the name/description CSVs only after the matrix. -/
def apply_soft_match_selection (embKeys : List String) (f : InputFile)
    (feature_label : String) (sel : List (String × Option String))
    (sampleIds : List String) : Except String (SoftResult × List Artifact) :=
  let mapping := selectedPairs sel
  if mapping.isEmpty then
    .error "KeyError: BioMedGraphica_Conn_ID"
  else
    let idMapRows := finalRawIdMapping embKeys mapping
    let coerced := softCoerced f mapping
    if coerced.isEmpty then
      .ok (⟨feature_label, 0, "error", some "No valid numeric data after merging", none⟩,
        [.rawIdMap idMapRows])
    else
      .ok (⟨feature_label, mapping.length, "success", none, none⟩,
        [.rawIdMap idMapRows,
         .matrix (sampleIds.map (fun s => embKeys.map (fun c => softPivotEntry coerced s c))),
         .nameDesc])

/-! Mapping submission endpoint (`submit_mappings` in `backend/api/processing.py`)
over the Redis-backed task store (`backend/service/task_tracker.py`). -/

structure TaskRecord where
  status : String
  job_id : String
deriving DecidableEq

structure Store where
  tasks : List (String × TaskRecord)
  mappings : List (String × String)
deriving DecidableEq

/-- storeGet models `get_task_status`. -/
def storeGet (st : Store) (taskId : String) : Option TaskRecord :=
  (st.tasks.find? (fun p => p.1 == taskId)).map Prod.snd

/-- submit_mappings models the endpoint: a task that is absent or not in
`awaiting_mapping` is rejected with the "Invalid mapping state" error before
any store write; otherwise the mappings are stored under the job id and the
task status is set to `resuming`. -/
def submit_mappings (st : Store) (taskId : String) (payload : String) :
    Store × Except String String :=
  match storeGet st taskId with
  | none => (st, .error "Invalid mapping state")
  | some tr =>
    if tr.status != "awaiting_mapping" then
      (st, .error "Invalid mapping state")
    else
      let st1 : Store :=
        { st with mappings :=
            (tr.job_id, payload) :: st.mappings.filter (fun p => p.1 != tr.job_id) }
      let st2 : Store :=
        { st1 with tasks := st1.tasks.map (fun p =>
            if p.1 == taskId then (p.1, { p.2 with status := "resuming" }) else p) }
      (st2, .ok "Mappings received and processing resumed.")

/-! Finalizer (`backend/service/finalize.py`): entity index mapping and edge
filtering. -/

/-- indexFrom pairs every list element with its position, starting at `n`
(models `range(len(df))` assigned as the `Index` column). -/
def indexFrom {α : Type} (n : Nat) : List α → List (Nat × α)
  | [] => []
  | x :: xs => (n, x) :: indexFrom (n + 1) xs

structure EdgeRow where
  fromId : String
  toId : String
  typ : String
deriving DecidableEq

/-- lookupTable models reading `raw_id_mapping/<file_name>_id_map.csv` for one
entry of `file_order`; `none` models a missing file (skipped with a warning).
A mapping table row is `(BioMedGraphica_Conn_ID, Original_ID)`. -/
def lookupTable (tables : List (String × List (String × String))) (f : String) :
    Option (List (String × String)) :=
  (tables.find? (fun p => p.1 == f)).map Prod.snd

/-- fullMapping models `pd.concat(mapping_dfs)`: the concatenation, in
`file_order`, of the mapping tables that exist. -/
def fullMapping (tables : List (String × List (String × String)))
    (fileOrder : List String) : List (String × String) :=
  (fileOrder.filterMap (lookupTable tables)).flatten

/-- entity_index_mapping models `full_mapping_df` with its `Index` column:
row `(Index, BioMedGraphica_Conn_ID, Original_ID)`. -/
def entity_index_mapping (tables : List (String × List (String × String)))
    (fileOrder : List String) : List (Nat × String × String) :=
  indexFrom 0 (fullMapping tables fileOrder)

/-- connIdsOf lists the canonical-ID column of the entity index mapping. -/
def connIdsOf (m : List (Nat × String × String)) : List String :=
  m.map (fun r => r.2.1)

/-- filter_edges models `filter_and_save_edge_data`'s `isin` filter: keep the
relation rows whose both endpoints appear in the entity index mapping. -/
def filter_edges (edges : List EdgeRow) (m : List (Nat × String × String)) :
    List EdgeRow :=
  edges.filter (fun e => (connIdsOf m).contains e.fromId && (connIdsOf m).contains e.toId)

/-- availableEdgeTypes models `filtered_edge_data['Type'].unique().tolist()`. -/
def availableEdgeTypes (edges : List EdgeRow) (m : List (Nat × String × String)) :
    List String :=
  dedupFirst ((filter_edges edges m).map (fun e => e.typ))

/-- lookupIndex models `.map(entity_index)`: the index of the (first) mapping
row carrying the given canonical ID. -/
def lookupIndex (m : List (Nat × String × String)) (id0 : String) : Option Nat :=
  (m.find? (fun r => r.2.1 == id0)).map Prod.fst

/-- edge_index_pairs models `process_edge_data_with_selected_types`: restrict
the filtered edges to the selected types, map both endpoints to their entity
indices and sort by source index — the rows of the saved `edge_index.npy`. -/
def edge_index_pairs (edges : List EdgeRow) (m : List (Nat × String × String))
    (selected : List String) : List (Nat × Nat) :=
  (((filter_edges edges m).filter (fun e => selected.contains e.typ)).filterMap
    (fun e => match lookupIndex m e.fromId, lookupIndex m e.toId with
      | some a, some b => some (a, b)
      | _, _ => none)).insertionSort (fun a b => a.1 ≤ b.1)

/-! Helper lemmas shared by the claim theorems. -/

theorem charListLe_total (as bs : List Char) :
    charListLe as bs = true ∨ charListLe bs as = true := by
  induction as generalizing bs with
  | nil => exact Or.inl rfl
  | cons a as ih =>
    cases bs with
    | nil => exact Or.inr rfl
    | cons b bs =>
      rcases lt_trichotomy a b with h | h | h
      · left; simp [charListLe, h]
      · subst h
        rcases ih bs with h' | h' <;> [left; right] <;> simp [charListLe, h', lt_irrefl]
      · right; simp [charListLe, h]

theorem charListLe_trans {as bs cs : List Char}
    (h₁ : charListLe as bs = true) (h₂ : charListLe bs cs = true) :
    charListLe as cs = true := by
  induction as generalizing bs cs with
  | nil => rfl
  | cons a as ih =>
    cases bs with
    | nil => simp [charListLe] at h₁
    | cons b bs =>
      cases cs with
      | nil => simp [charListLe] at h₂
      | cons c cs =>
        simp only [charListLe] at h₁ h₂ ⊢
        by_cases hab : a < b
        · by_cases hbc : b < c
          · simp [lt_trans hab hbc]
          · by_cases hcb : c < b
            · simp [hbc, hcb] at h₂
            · have hbceq : b = c := le_antisymm (not_lt.mp hcb) (not_lt.mp hbc)
              subst hbceq
              simp [hab]
        · by_cases hba : b < a
          · simp [hab, hba] at h₁
          · have habeq : a = b := le_antisymm (not_lt.mp hba) (not_lt.mp hab)
            subst habeq
            by_cases hac : a < c
            · simp [hac]
            · by_cases hca : c < a
              · simp [hac, hca] at h₂
              · rw [if_neg hac, if_neg hca]
                rw [if_neg hab, if_neg hab] at h₁
                rw [if_neg hac, if_neg hca] at h₂
                exact ih h₁ h₂

theorem mem_dedupFirstAux {α : Type} [DecidableEq α] {l : List α} {x : α} :
    ∀ {seen : List α}, x ∈ dedupFirstAux seen l ↔ x ∈ l ∧ x ∉ seen := by
  induction l with
  | nil => simp [dedupFirstAux]
  | cons a xs ih =>
    intro seen
    by_cases ha : a ∈ seen
    · simp only [dedupFirstAux, if_pos ha, ih, List.mem_cons]
      constructor
      · rintro ⟨hx, hs⟩; exact ⟨Or.inr hx, hs⟩
      · rintro ⟨hx | hx, hs⟩
        · exact absurd ha (hx ▸ hs)
        · exact ⟨hx, hs⟩
    · simp only [dedupFirstAux, if_neg ha, List.mem_cons, ih]
      constructor
      · rintro (rfl | ⟨hx, hs⟩)
        · exact ⟨Or.inl rfl, ha⟩
        · exact ⟨Or.inr hx, fun h => hs (Or.inr h)⟩
      · rintro ⟨rfl | hx, hs⟩
        · exact Or.inl rfl
        · by_cases hxa : x = a
          · exact Or.inl hxa
          · exact Or.inr ⟨hx, fun h => h.elim hxa hs⟩

theorem mem_dedupFirst {α : Type} [DecidableEq α] {l : List α} {x : α} :
    x ∈ dedupFirst l ↔ x ∈ l := by
  unfold dedupFirst
  rw [mem_dedupFirstAux]
  simp

theorem nodup_dedupFirstAux {α : Type} [DecidableEq α] (l : List α) :
    ∀ seen : List α, (dedupFirstAux seen l).Nodup := by
  induction l with
  | nil => intro seen; simp [dedupFirstAux]
  | cons a xs ih =>
    intro seen
    simp only [dedupFirstAux]
    by_cases ha : a ∈ seen
    · rw [if_pos ha]; exact ih seen
    · rw [if_neg ha, List.nodup_cons]
      refine ⟨fun hmem => ?_, ih (a :: seen)⟩
      exact (mem_dedupFirstAux.mp hmem).2 (List.mem_cons_self a seen)

theorem nodup_dedupFirst {α : Type} [DecidableEq α] (l : List α) :
    (dedupFirst l).Nodup :=
  nodup_dedupFirstAux l []


theorem groupedOrigIds_nil (c : String) : groupedOrigIds [] c = "" := rfl

theorem groupedOrigIds_of_not_mem (mapping : List (String × String)) (c : String)
    (h : c ∉ mapping.map Prod.snd) : groupedOrigIds mapping c = "" := by
  have hfil : mapping.filter (fun p => p.2 == c) = [] := by
    rw [List.filter_eq_nil_iff]
    intro p hp
    simp only [beq_iff_eq]
    intro he
    exact h (he ▸ List.mem_map_of_mem Prod.snd hp)
  simp [groupedOrigIds, hfil, dedupFirst, dedupFirstAux, sortStr, joinSemi]

theorem mem_meltFile_fst {f : InputFile} {m : String × String × Option Rat}
    (h : m ∈ meltFile f) : m.1 ∈ f.samples := by
  simp only [meltFile, List.mem_flatten, List.mem_map] at h
  obtain ⟨l, ⟨col, _, rfl⟩, hm⟩ := h
  obtain ⟨p, hp, rfl⟩ := List.mem_map.mp hm
  exact (List.of_mem_zip hp).1

theorem mem_mergeJoin_fst {melted : List (String × String × Option Rat)}
    {mapping : List (String × String)} {r : String × String × Option Rat}
    (h : r ∈ mergeJoin melted mapping) : ∃ m ∈ melted, r.1 = m.1 := by
  simp only [mergeJoin, List.mem_flatten, List.mem_map] at h
  obtain ⟨l, ⟨m, hm, rfl⟩, hr⟩ := h
  obtain ⟨p, _, rfl⟩ := List.mem_map.mp hr
  exact ⟨m, hm, rfl⟩

theorem pivotEntry_of_not_sample {merged : List (String × String × Option Rat)}
    {s : String} (c : String)
    (h : ∀ r ∈ merged, r.1 ≠ s) : pivotEntry merged s c = 0 := by
  have hfil : merged.filter (fun r => r.1 == s && r.2.1 == c) = [] := by
    rw [List.filter_eq_nil_iff]
    intro r hr
    simp [h r hr]
  simp [pivotEntry, hfil]

/-! Claim theorems. -/

/-- Claim C2, counterexample: two eligible configs with disjoint sample sets do
not produce a distinct empty-intersection failure — the reconciler succeeds
with the empty common sample set and the job proceeds with it. -/
theorem claim2_empty_intersection_cex :
    compute_common_ids [⟨"a", "gene", false, ["S1"]⟩, ⟨"b", "gene", false, ["S2"]⟩] =
      .ok [] := rfl

/-- Claim C2, amended: the Sample Reconciler fails (with its single
`ValueError`) exactly when zero eligible configs exist; when eligible configs
exist it always succeeds, returning the sorted deduplicated intersection —
which may be empty, with no distinct empty-intersection error. -/
theorem claim2_reconciler_failure_behavior (cfgs : List EntityCfg) :
    ((∃ e, compute_common_ids cfgs = .error e) ↔ eligibleCfgs cfgs = []) ∧
    (eligibleCfgs cfgs ≠ [] →
      compute_common_ids cfgs =
        .ok (sortStr (dedupFirst (interAll ((eligibleCfgs cfgs).map (fun c => c.fileSamples)))))) := by
  constructor
  · unfold compute_common_ids
    by_cases h : ((eligibleCfgs cfgs).map (fun c => c.fileSamples)).isEmpty
    · simp only [h, if_true]
      simp only [List.isEmpty_iff, List.map_eq_nil_iff] at h
      simp [h]
    · simp only [h, if_false]
      simp only [List.isEmpty_iff, List.map_eq_nil_iff] at h
      simp [h]
  · intro h
    unfold compute_common_ids
    have : ((eligibleCfgs cfgs).map (fun c => c.fileSamples)).isEmpty = false := by
      simp [List.isEmpty_iff, h]
    simp [this]

/-- Claim C2, witness: one eligible config makes the reconciler succeed with
its (sorted) sample list. -/
theorem claim2_witness :
    compute_common_ids [⟨"a", "gene", false, ["S2", "S1"]⟩] = .ok ["S1", "S2"] := by
  have h := (claim2_reconciler_failure_behavior [⟨"a", "gene", false, ["S2", "S1"]⟩]).2
    (by decide)
  exact h.trans (by rfl)

/-- Claim C3: for every virtual (fill0) entity config, hard-match resolution
returns an all-zero matrix with one row per common sample and one column per
canonical ID of the entity type in full canonical order, and a raw-id mapping
in which every canonical ID maps to the empty original-ID string. -/
theorem claim3_virtual_fill0 (tbl : EntityTable) (f : InputFile) (sampleIds : List String) :
    (process_entity_hard_match tbl f true sampleIds).matrix.map Prod.fst = sampleIds ∧
    (process_entity_hard_match tbl f true sampleIds).matrix.length = sampleIds.length ∧
    (∀ row ∈ (process_entity_hard_match tbl f true sampleIds).matrix,
      row.2.length = (bmgIds tbl).length ∧ ∀ v ∈ row.2, v = 0) ∧
    (process_entity_hard_match tbl f true sampleIds).rawIdMap =
      (bmgIds tbl).map (fun c => (c, "")) := by
  have hm : (process_entity_hard_match tbl f true sampleIds).matrix = fill0Expr tbl sampleIds := rfl
  refine ⟨?_, ?_, ?_, rfl⟩
  · rw [hm]
    simp [fill0Expr, List.map_map, Function.comp_def]
  · rw [hm]
    simp [fill0Expr]
  · intro row hrow
    rw [hm] at hrow
    simp only [fill0Expr, List.mem_map] at hrow
    obtain ⟨s, _, rfl⟩ := hrow
    refine ⟨by simp, ?_⟩
    intro v hv
    simp only [List.mem_map] at hv
    obtain ⟨c, _, rfl⟩ := hv
    rfl

/-- Claim C3, witness: a two-ID reference table and two common samples yield
the 2 × 2 zero matrix labels and the blank mapping rows. -/
theorem claim3_witness :
    (process_entity_hard_match [⟨none, "B1"⟩, ⟨none, "B2"⟩] ⟨[], []⟩ true
        ["S1", "S2"]).matrix.map Prod.fst = ["S1", "S2"] ∧
    (process_entity_hard_match [⟨none, "B1"⟩, ⟨none, "B2"⟩] ⟨[], []⟩ true
        ["S1", "S2"]).rawIdMap = [("B1", ""), ("B2", "")] := by
  have h := claim3_virtual_fill0 [⟨none, "B1"⟩, ⟨none, "B2"⟩] ⟨[], []⟩ ["S1", "S2"]
  exact ⟨h.1, h.2.2.2.trans (by rfl)⟩

/-- Claim C8: submitting confirmed mappings for a task that is absent or whose
status is not `awaiting_mapping` is rejected with the invalid-state error, and
the store (task records and stored mappings) is returned unchanged. -/
theorem claim8_submit_mappings_invalid_state (st : Store) (tid payload : String)
    (h : ((storeGet st tid).map TaskRecord.status).getD "" ≠ "awaiting_mapping") :
    submit_mappings st tid payload = (st, .error "Invalid mapping state") := by
  by_cases hnone : storeGet st tid = none
  · unfold submit_mappings
    rw [hnone]
  · obtain ⟨tr, hg⟩ := Option.ne_none_iff_exists'.mp hnone
    rw [hg] at h
    simp at h
    unfold submit_mappings
    rw [hg]
    simp [h]

/-- Claim C8, witness: a task in `processing` is rejected and the whole store,
including a previously stored mapping, is unchanged. -/
theorem claim8_witness :
    submit_mappings ⟨[("t1", ⟨"processing", "j1"⟩)], [("j0", "m0")]⟩ "t1" "p" =
      (⟨[("t1", ⟨"processing", "j1"⟩)], [("j0", "m0")]⟩, .error "Invalid mapping state") :=
  claim8_submit_mappings_invalid_state _ _ _ (by decide)

/-- Claim C9, counterexample: a failing label unit does set the job status to
`failed` on its own — `run_label_task` calls `update_task_status(job_id,
"failed", ...)` on its error paths, contradicting the claim that a single
unit's error never sets the job status to failure. -/
theorem claim9_label_error_sets_failed_cex :
    run_label_task ⟨"lab", "gene", "binary", ⟨[], []⟩⟩ "job1" ["S1"] =
      (⟨"lab", "error", some "Invalid entity_type for label"⟩, [⟨"job1", "failed"⟩], none) := rfl

/-- Claim C9, amended: every unit failure is captured as a structured error in
the unit's own result (the unit functions are total and return a result in
every case); a hard-match unit never writes a task status, but a label unit
error additionally writes the job status `failed` by itself. -/
theorem claim9_unit_failure_capture (db : Option EntityTable) (fl : String)
    (f : InputFile) (fill0 : Bool) (common : List String) (lcfg : LabelCfg)
    (jobId : String) :
    (run_hard_match_task db fl f fill0 common).2 = [] ∧
    ((run_hard_match_task db fl f fill0 common).1.status = "success" ∨
      (run_hard_match_task db fl f fill0 common).1.status = "error") ∧
    ((run_label_task lcfg jobId common).1.status = "error" →
      (run_label_task lcfg jobId common).2.1 = [⟨jobId, "failed"⟩]) := by
  refine ⟨?_, ?_, ?_⟩
  · cases db <;> rfl
  · cases db
    · right; rfl
    · left; rfl
  · intro herr
    unfold run_label_task at herr ⊢
    split_ifs at herr ⊢ <;>
      first
        | rfl
        | exact absurd (show ("success" : String) = "error" from herr) (by decide)

/-- Claim C9, witness: a hard-match unit over a missing reference table
returns a structured error with no status write, while a failing label unit
writes `failed` for its job. -/
theorem claim9_witness :
    (run_hard_match_task none "x" ⟨[], []⟩ false ["S1"]).2 = [] ∧
    (run_label_task ⟨"lab", "gene", "binary", ⟨[], []⟩⟩ "jobW" ["S1"]).2.1 =
      [⟨"jobW", "failed"⟩] := by
  have h := claim9_unit_failure_capture none "x" ⟨[], []⟩ false ["S1"]
    ⟨"lab", "gene", "binary", ⟨[], []⟩⟩ "jobW"
  exact ⟨h.1, h.2.2 (by rfl)⟩

/-- Claim C4: a reference cell "g1;g2" mapped to canonical "BMG_1" is exploded
so that an input column "g2" with values [5, 7] over two common samples yields
the BMG_1 column [5, 7] in common-sample order, and the reverse mapping
associates BMG_1 with exactly "g2". -/
theorem claim4_semicolon_synonym (s1 s2 : String) (h : s1 ≠ s2) :
    hardMatchExpr [⟨some "g1;g2", "BMG_1"⟩] ⟨[s1, s2], [("g2", [some 5, some 7])]⟩ [s1, s2] =
      [(s1, [5]), (s2, [7])] ∧
    finalRawIdMapping (bmgIds [⟨some "g1;g2", "BMG_1"⟩])
      (mappingPairs [⟨some "g1;g2", "BMG_1"⟩]
        (usedIds ⟨[s1, s2], [("g2", [some 5, some 7])]⟩)) = [("BMG_1", "g2")] := by
  constructor
  · have hm : mappingPairs [⟨some "g1;g2", "BMG_1"⟩]
        (usedIds ⟨[s1, s2], [("g2", [some 5, some 7])]⟩) = [("g2", "BMG_1")] := rfl
    have hmelt : meltFile ⟨[s1, s2], [("g2", [some 5, some 7])]⟩ =
        [(s1, "g2", some 5), (s2, "g2", some 7)] := rfl
    have hmerge : mergeJoin (meltFile ⟨[s1, s2], [("g2", [some 5, some 7])]⟩) [("g2", "BMG_1")] =
        [(s1, "BMG_1", some 5), (s2, "BMG_1", some 7)] := by
      rw [hmelt]; rfl
    unfold hardMatchExpr
    rw [hm, hmerge]
    have hb : bmgIds [(⟨some "g1;g2", "BMG_1"⟩ : RefRow)] = ["BMG_1"] := rfl
    rw [hb]
    have e1 : pivotEntry [(s1, "BMG_1", some 5), (s2, "BMG_1", some 7)] s1 "BMG_1" = 5 := by
      unfold pivotEntry
      rw [List.filter_cons_of_pos (by simp), List.filter_cons_of_neg (by simp [Ne.symm h]),
        List.filter_nil]
      norm_num [List.filterMap]
    have e2 : pivotEntry [(s1, "BMG_1", some 5), (s2, "BMG_1", some 7)] s2 "BMG_1" = 7 := by
      unfold pivotEntry
      rw [List.filter_cons_of_neg (by simp [h]), List.filter_cons_of_pos (by simp),
        List.filter_nil]
      norm_num [List.filterMap]
    simp [e1, e2]
  · rfl

/-- Claim C4, witness: the scenario at the concrete samples "S1" and "S2". -/
theorem claim4_witness :
    hardMatchExpr [⟨some "g1;g2", "BMG_1"⟩] ⟨["S1", "S2"], [("g2", [some 5, some 7])]⟩
        ["S1", "S2"] = [("S1", [5]), ("S2", [7])] ∧
    finalRawIdMapping (bmgIds [⟨some "g1;g2", "BMG_1"⟩])
      (mappingPairs [⟨some "g1;g2", "BMG_1"⟩]
        (usedIds ⟨["S1", "S2"], [("g2", [some 5, some 7])]⟩)) = [("BMG_1", "g2")] :=
  claim4_semicolon_synonym "S1" "S2" (by decide)

/-- Claim C5, code-bug evidence: soft-match apply with an empty
confirmed-mapping set yields no matrix at all — building the grouped reverse
mapping raises `KeyError` on the column-less empty mapping frame before any
artifact is written, so the zero-matrix fallback the claim describes (and the
code's own "If nothing selected: fill zero matrix" branch implements) is
unreachable. -/
theorem claim5_empty_selection_crash :
    apply_soft_match_selection ["A"] ⟨["S1"], []⟩ "x" [] ["S1"] =
      .error "KeyError: BioMedGraphica_Conn_ID" := rfl

/-- Claim C6, counterexample: two of the three merged rows fail numeric
coercion and are dropped, the unit still succeeds, but its result — shown in
full — carries no dropped-row count: its only count field is `mapped_count`,
which is 1 (the number of confirmed pairs), not the dropped-row count 2. -/
theorem claim6_dropped_not_surfaced_cex :
    softDroppedCount ⟨["S1", "S2", "S3"], [("g1", [some 5, none, none])]⟩
        (selectedPairs [("g1", some "B1")]) = 2 ∧
    Except.map Prod.fst
      (apply_soft_match_selection ["B1"] ⟨["S1", "S2", "S3"],
        [("g1", [some 5, none, none])]⟩ "x" [("g1", some "B1")] ["S1", "S2", "S3"]) =
      .ok ⟨"x", 1, "success", none, none⟩ ∧
    (1 : Nat) ≠ 2 :=
  ⟨rfl, rfl, by decide⟩

/-- Claim C6, amended: rows whose value fails numeric coercion are dropped
without failing the unit — with at least one usable row the unit succeeds
regardless of how many rows were dropped — and with zero usable rows after
coercion it fails with the no-usable-numeric-data error; the dropped-row
count is not surfaced in the unit's result (the result carries only the
feature label, the confirmed-mapping count and the status). -/
theorem claim6_coercion_tolerant (embKeys : List String) (f : InputFile) (fl : String)
    (sel : List (String × Option String)) (common : List String)
    (hne : selectedPairs sel ≠ []) :
    (softCoerced f (selectedPairs sel) = [] →
      Except.map Prod.fst (apply_soft_match_selection embKeys f fl sel common) =
        .ok ⟨fl, 0, "error", some "No valid numeric data after merging", none⟩) ∧
    (softCoerced f (selectedPairs sel) ≠ [] →
      Except.map Prod.fst (apply_soft_match_selection embKeys f fl sel common) =
        .ok ⟨fl, (selectedPairs sel).length, "success", none, none⟩) := by
  have h1 : (selectedPairs sel).isEmpty = false := by
    simpa [List.isEmpty_iff] using hne
  constructor
  · intro h2
    unfold apply_soft_match_selection
    simp [h1, h2, Except.map]
  · intro h2
    have h3 : (softCoerced f (selectedPairs sel)).isEmpty = false := by
      simpa [List.isEmpty_iff] using h2
    unfold apply_soft_match_selection
    simp [h1, h3, Except.map]

/-- Claim C6, witness: one dropped row, one usable row, and the unit succeeds
with `mapped_count` 1. -/
theorem claim6_witness :
    Except.map Prod.fst (apply_soft_match_selection ["B1"] ⟨["S1", "S2"],
        [("g1", [some 4, none])]⟩ "y" [("g1", some "B1")] ["S1", "S2"]) =
      .ok ⟨"y", 1, "success", none, none⟩ :=
  (claim6_coercion_tolerant ["B1"] ⟨["S1", "S2"], [("g1", [some 4, none])]⟩ "y"
    [("g1", some "B1")] ["S1", "S2"] (by decide)).2 (by decide)

/-- Claim C10: on every completed run of soft-match apply the raw-id-mapping
CSV — one row per canonical ID of the entity type, empty Original_ID for
unmapped IDs — is the first artifact written, before the merged numeric data
is validated, so on the no-usable-numeric-data error path the mapping
artifact is the only artifact written (no matrix), and a matrix artifact is
written exactly when the unit succeeds; on the empty-selection path the
function raises before writing anything at all. -/
theorem claim10_mapping_written_before_validation (embKeys : List String)
    (f : InputFile) (fl : String) (sel : List (String × Option String))
    (common : List String) :
    ((finalRawIdMapping embKeys (selectedPairs sel)).map Prod.fst = embKeys) ∧
    (∀ c ∈ embKeys, c ∉ (selectedPairs sel).map Prod.snd →
      (c, "") ∈ finalRawIdMapping embKeys (selectedPairs sel)) ∧
    (selectedPairs sel = [] →
      apply_soft_match_selection embKeys f fl sel common =
        .error "KeyError: BioMedGraphica_Conn_ID") ∧
    (∀ out, apply_soft_match_selection embKeys f fl sel common = .ok out →
      (∃ rest, out.2 =
        Artifact.rawIdMap (finalRawIdMapping embKeys (selectedPairs sel)) :: rest) ∧
      (out.1.status = "error" →
        out.2 = [Artifact.rawIdMap (finalRawIdMapping embKeys (selectedPairs sel))]) ∧
      ((∃ mrows, Artifact.matrix mrows ∈ out.2) ↔ out.1.status = "success")) := by
  have hmap2 : (finalRawIdMapping embKeys (selectedPairs sel)).map Prod.fst = embKeys := by
    simp [finalRawIdMapping, List.map_map, Function.comp_def]
  have hmap3 : ∀ c ∈ embKeys, c ∉ (selectedPairs sel).map Prod.snd →
      (c, "") ∈ finalRawIdMapping embKeys (selectedPairs sel) := by
    intro c hc hnot
    unfold finalRawIdMapping
    exact List.mem_map.mpr ⟨c, hc, by simp [groupedOrigIds_of_not_mem _ _ hnot]⟩
  refine ⟨hmap2, hmap3, ?_, ?_⟩
  · intro hsel
    unfold apply_soft_match_selection
    simp [hsel]
  · intro out happ
    by_cases h1 : (selectedPairs sel).isEmpty = true
    · unfold apply_soft_match_selection at happ
      simp [h1] at happ
    · have h1f : (selectedPairs sel).isEmpty = false := by simpa using h1
      obtain ⟨res, arts⟩ := out
      by_cases h2 : (softCoerced f (selectedPairs sel)).isEmpty = true
      · have hout : apply_soft_match_selection embKeys f fl sel common =
            .ok (⟨fl, 0, "error", some "No valid numeric data after merging", none⟩,
              [Artifact.rawIdMap (finalRawIdMapping embKeys (selectedPairs sel))]) := by
          unfold apply_soft_match_selection
          simp [h1f, h2]
        rw [hout] at happ
        obtain ⟨hres, harts⟩ := Prod.mk.injEq .. ▸ (Except.ok.inj happ)
        subst hres
        subst harts
        refine ⟨⟨[], rfl⟩, fun _ => rfl, ?_⟩
        constructor
        · rintro ⟨m, hm⟩
          simp at hm
        · intro hsucc
          exact absurd (show ("error" : String) = "success" from hsucc) (by decide)
      · have h2f : (softCoerced f (selectedPairs sel)).isEmpty = false := by simpa using h2
        have hout : apply_soft_match_selection embKeys f fl sel common =
            .ok (⟨fl, (selectedPairs sel).length, "success", none, none⟩,
              [Artifact.rawIdMap (finalRawIdMapping embKeys (selectedPairs sel)),
               Artifact.matrix (common.map (fun s => embKeys.map
                 (fun c => softPivotEntry (softCoerced f (selectedPairs sel)) s c))),
               Artifact.nameDesc]) := by
          unfold apply_soft_match_selection
          simp [h1f, h2f]
        rw [hout] at happ
        obtain ⟨hres, harts⟩ := Prod.mk.injEq .. ▸ (Except.ok.inj happ)
        subst hres
        subst harts
        refine ⟨⟨_, rfl⟩, ?_, ?_⟩
        · intro herr
          exact absurd (show ("success" : String) = "error" from herr) (by decide)
        · constructor
          · intro _; rfl
          · intro _
            exact ⟨common.map (fun s => embKeys.map
              (fun c => softPivotEntry (softCoerced f (selectedPairs sel)) s c)), by simp⟩

/-- Claim C10, witness: on an input whose single merged row fails numeric
coercion, soft-match apply completes with an error result whose only written
artifact is the raw-id mapping, and no matrix artifact exists among the
writes. -/
theorem claim10_witness :
    apply_soft_match_selection ["B1"] ⟨["S1"], [("g1", [none])]⟩ "z"
        [("g1", some "B1")] ["S1"] =
      .ok (⟨"z", 0, "error", some "No valid numeric data after merging", none⟩,
        [Artifact.rawIdMap [("B1", "g1")]]) ∧
    ¬ (∃ mrows, Artifact.matrix mrows ∈ [Artifact.rawIdMap [("B1", "g1")]]) := by
  have happ : apply_soft_match_selection ["B1"] ⟨["S1"], [("g1", [none])]⟩ "z"
      [("g1", some "B1")] ["S1"] =
      .ok (⟨"z", 0, "error", some "No valid numeric data after merging", none⟩,
        [Artifact.rawIdMap [("B1", "g1")]]) := rfl
  have h := (claim10_mapping_written_before_validation ["B1"] ⟨["S1"], [("g1", [none])]⟩
    "z" [("g1", some "B1")] ["S1"]).2.2.2 _ happ
  refine ⟨happ, fun hex => ?_⟩
  exact absurd (h.2.2.mp hex) (by decide)

theorem indexFrom_map_fst {α : Type} (n : Nat) (l : List α) :
    (indexFrom n l).map Prod.fst = List.range' n l.length := by
  induction l generalizing n with
  | nil => rfl
  | cons x xs ih => simp [indexFrom, List.range'_succ, ih]

theorem fst_lt_of_mem_indexFrom {α : Type} {n : Nat} {l : List α} {p : Nat × α}
    (h : p ∈ indexFrom n l) : p.1 < n + l.length := by
  induction l generalizing n with
  | nil => simp [indexFrom] at h
  | cons x xs ih =>
    simp only [indexFrom, List.mem_cons] at h
    rcases h with rfl | h
    · simp
    · have := ih h
      simp only [List.length_cons]
      omega

theorem fullMapping_length (tables : List (String × List (String × String))) :
    ∀ fileOrder : List String,
      (∀ fn ∈ fileOrder, (lookupTable tables fn).isSome) →
      (fullMapping tables fileOrder).length =
        (fileOrder.map (fun fn => ((lookupTable tables fn).getD []).length)).sum
  | [], _ => rfl
  | fn :: rest, hall => by
    obtain ⟨t, ht⟩ := Option.isSome_iff_exists.mp (hall fn (List.mem_cons_self _ _))
    have hrest := fullMapping_length tables rest
      (fun g hg => hall g (List.mem_cons_of_mem _ hg))
    simp only [fullMapping, List.filterMap_cons, ht, List.flatten_cons, List.length_append,
      List.map_cons, List.sum_cons, Option.getD_some]
    rw [← hrest]
    rfl

theorem lookupIndex_lt {tables : List (String × List (String × String))}
    {fileOrder : List String} {id0 : String} {k : Nat}
    (h : lookupIndex (entity_index_mapping tables fileOrder) id0 = some k) :
    k < (fullMapping tables fileOrder).length := by
  unfold lookupIndex at h
  obtain ⟨r, hfind, hk⟩ := Option.map_eq_some'.mp h
  have hmem := List.mem_of_find?_eq_some hfind
  have hlt := fst_lt_of_mem_indexFrom (n := 0) hmem
  simpa [hk] using hlt

/-- Claim C7: the entity index mapping built at finalize is contiguous and
0-based; its length is the sum of the per-entity canonical-ID counts over
`file_order` (when every listed mapping table exists); the edge filter keeps
only rows whose both endpoints appear in the mapping; and every emitted edge
pair has both endpoint indices below the mapping length. -/
theorem claim7_entity_index_and_edges (tables : List (String × List (String × String)))
    (fileOrder : List String) (edges : List EdgeRow) (selected : List String)
    (hall : ∀ fn ∈ fileOrder, (lookupTable tables fn).isSome) :
    (entity_index_mapping tables fileOrder).map Prod.fst =
      List.range (fullMapping tables fileOrder).length ∧
    (fullMapping tables fileOrder).length =
      (fileOrder.map (fun fn => ((lookupTable tables fn).getD []).length)).sum ∧
    (∀ e ∈ filter_edges edges (entity_index_mapping tables fileOrder),
      e.fromId ∈ connIdsOf (entity_index_mapping tables fileOrder) ∧
      e.toId ∈ connIdsOf (entity_index_mapping tables fileOrder)) ∧
    (∀ p ∈ edge_index_pairs edges (entity_index_mapping tables fileOrder) selected,
      p.1 < (fullMapping tables fileOrder).length ∧
      p.2 < (fullMapping tables fileOrder).length) := by
  refine ⟨?_, fullMapping_length tables fileOrder hall, ?_, ?_⟩
  · unfold entity_index_mapping
    rw [indexFrom_map_fst, List.range_eq_range']
  · intro e he
    unfold filter_edges at he
    rw [List.mem_filter] at he
    have hpred := he.2
    rw [Bool.and_eq_true] at hpred
    constructor
    · simpa using hpred.1
    · simpa using hpred.2
  · intro p hp
    unfold edge_index_pairs at hp
    rw [List.mem_insertionSort] at hp
    rw [List.mem_filterMap] at hp
    obtain ⟨e, _, hmatch⟩ := hp
    cases hfa : lookupIndex (entity_index_mapping tables fileOrder) e.fromId with
    | none =>
      rw [hfa] at hmatch
      cases hfb : lookupIndex (entity_index_mapping tables fileOrder) e.toId <;>
        rw [hfb] at hmatch <;> exact absurd hmatch (by simp)
    | some a =>
      rw [hfa] at hmatch
      cases hfb : lookupIndex (entity_index_mapping tables fileOrder) e.toId with
      | none => rw [hfb] at hmatch; exact absurd hmatch (by simp)
      | some b =>
        rw [hfb] at hmatch
        have hp' : (a, b) = p := by simpa using hmatch
        rw [← hp']
        exact ⟨lookupIndex_lt hfa, lookupIndex_lt hfb⟩

/-- Claim C7, witness: a single two-row mapping table gives indices [0, 1] and
the one kept edge maps inside the bound 2. -/
theorem claim7_witness :
    (entity_index_mapping [("g", [("A", "a1"), ("B", "")])] ["g"]).map Prod.fst = [0, 1] ∧
    (0, 1) ∈ edge_index_pairs [⟨"A", "B", "T"⟩, ⟨"A", "C", "T"⟩]
        (entity_index_mapping [("g", [("A", "a1"), ("B", "")])] ["g"]) ["T"] ∧
    (0, 1).1 < 2 ∧ (0, 1).2 < 2 := by
  have h := claim7_entity_index_and_edges [("g", [("A", "a1"), ("B", "")])] ["g"]
    [⟨"A", "B", "T"⟩, ⟨"A", "C", "T"⟩] ["T"] (by decide)
  exact ⟨h.1.trans (by rfl), by decide, h.2.2.2 (0, 1) (by decide)⟩

theorem mem_interAll {sets : List (List String)} {x : String} (hne : sets ≠ []) :
    x ∈ interAll sets ↔ ∀ t ∈ sets, x ∈ t := by
  cases sets with
  | nil => exact absurd rfl hne
  | cons s rest =>
    simp only [interAll, List.mem_filter, List.all_eq_true, decide_eq_true_eq, List.mem_cons]
    constructor
    · rintro ⟨hs, hall⟩ t (rfl | ht)
      · exact hs
      · exact hall t ht
    · intro hall
      exact ⟨hall s (Or.inl rfl), fun t ht => hall t (Or.inr ht)⟩

/-- Claim C1: the common sample list is the sorted deduplicated intersection
of the eligible configs' sample columns, and every emitted artifact is row
indexed by it: the hard-match matrix (real or virtual) has exactly those row
labels in that order, rows for samples absent from the input are zero-filled,
the label vector has one entry per common sample with 0 for samples absent
from the label file, and every soft-match matrix has one row per common
sample. -/
theorem claim1_rows_indexed_by_common_samples (cfgs : List EntityCfg)
    (common : List String) (h : compute_common_ids cfgs = .ok common) :
    List.Sorted strLe common ∧ common.Nodup ∧
    (∀ s, s ∈ common ↔ ∀ c ∈ eligibleCfgs cfgs, s ∈ c.fileSamples) ∧
    (∀ tbl f, (hardMatchExpr tbl f common).map Prod.fst = common ∧
      (hardMatchExpr tbl f common).length = common.length ∧
      (∀ row ∈ hardMatchExpr tbl f common, row.1 ∉ f.samples →
        row.2 = (bmgIds tbl).map (fun _ => (0 : Rat)))) ∧
    (∀ tbl, (fill0Expr tbl common).map Prod.fst = common ∧
      (fill0Expr tbl common).length = common.length) ∧
    (∀ lf, (labelVector lf common).length = common.length ∧
      (∀ s, s ∉ lf.samples → labelValueFor lf s = 0)) ∧
    (∀ embKeys f fl sel out mrows,
      apply_soft_match_selection embKeys f fl sel common = .ok out →
      Artifact.matrix mrows ∈ out.2 →
      mrows.length = common.length) := by
  unfold compute_common_ids at h
  by_cases hset : ((eligibleCfgs cfgs).map (fun c => c.fileSamples)).isEmpty
  · simp only [hset, if_true] at h
    exact Except.noConfusion h
  · simp only [Bool.not_eq_true] at hset
    simp only [hset, Bool.false_eq_true, if_false] at h
    injection h with h
    subst h
    have hne : (eligibleCfgs cfgs).map (fun c => c.fileSamples) ≠ [] := by
      simpa [List.isEmpty_iff] using hset
    haveI : IsTotal String strLe := ⟨fun a b => charListLe_total a.data b.data⟩
    haveI : IsTrans String strLe := ⟨fun _ _ _ => charListLe_trans⟩
    refine ⟨?_, ?_, ?_, ?_, ?_, ?_, ?_⟩
    · exact List.sorted_insertionSort strLe _
    · exact (List.perm_insertionSort strLe _).nodup_iff.mpr (nodup_dedupFirst _)
    · intro s
      rw [sortStr, List.mem_insertionSort, mem_dedupFirst, mem_interAll hne]
      constructor
      · intro hall c hc
        exact hall c.fileSamples (List.mem_map_of_mem _ hc)
      · intro hall t ht
        obtain ⟨c, hc, rfl⟩ := List.mem_map.mp ht
        exact hall c hc
    · intro tbl f
      refine ⟨?_, ?_, ?_⟩
      · simp [hardMatchExpr, List.map_map, Function.comp_def]
      · simp [hardMatchExpr]
      · intro row hrow hnot
        simp only [hardMatchExpr, List.mem_map] at hrow
        obtain ⟨s, _, rfl⟩ := hrow
        refine List.map_congr_left ?_
        intro c _
        apply pivotEntry_of_not_sample
        intro r hr
        obtain ⟨m, hm, heq⟩ := mem_mergeJoin_fst hr
        rw [heq]
        intro hcontra
        exact hnot (hcontra ▸ mem_meltFile_fst hm)
    · intro tbl
      constructor
      · simp [fill0Expr, List.map_map, Function.comp_def]
      · simp [fill0Expr]
    · intro lf
      refine ⟨by simp [labelVector], ?_⟩
      intro s hs
      unfold labelValueFor
      cases hcols : lf.cols with
      | nil => rfl
      | cons c0 rest =>
        have hfind : (lf.samples.zip c0).find? (fun p => p.1 == s) = none := by
          rw [List.find?_eq_none]
          intro p hp
          simp only [beq_iff_eq]
          intro he
          exact hs (he ▸ (List.of_mem_zip hp).1)
        simp [hfind]
    · intro embKeys f fl sel out mrows happ hmem
      by_cases h1 : (selectedPairs sel).isEmpty = true
      · unfold apply_soft_match_selection at happ
        simp [h1] at happ
      · have h1f : (selectedPairs sel).isEmpty = false := by simpa using h1
        obtain ⟨res, arts⟩ := out
        by_cases h2 : (softCoerced f (selectedPairs sel)).isEmpty = true
        · have hout : (apply_soft_match_selection embKeys f fl sel
              (sortStr (dedupFirst (interAll ((eligibleCfgs cfgs).map (fun c => c.fileSamples)))))) =
              .ok (⟨fl, 0, "error", some "No valid numeric data after merging", none⟩,
                [Artifact.rawIdMap (finalRawIdMapping embKeys (selectedPairs sel))]) := by
            unfold apply_soft_match_selection
            simp [h1f, h2]
          rw [hout] at happ
          obtain ⟨hres, harts⟩ := Prod.mk.injEq .. ▸ (Except.ok.inj happ)
          subst harts
          simp at hmem
        · have h2f : (softCoerced f (selectedPairs sel)).isEmpty = false := by simpa using h2
          have hout : (apply_soft_match_selection embKeys f fl sel
              (sortStr (dedupFirst (interAll ((eligibleCfgs cfgs).map (fun c => c.fileSamples)))))) =
              .ok (⟨fl, (selectedPairs sel).length, "success", none, none⟩,
                [Artifact.rawIdMap (finalRawIdMapping embKeys (selectedPairs sel)),
                 Artifact.matrix ((sortStr (dedupFirst (interAll ((eligibleCfgs cfgs).map
                     (fun c => c.fileSamples))))).map (fun s => embKeys.map
                   (fun c => softPivotEntry (softCoerced f (selectedPairs sel)) s c))),
                 Artifact.nameDesc]) := by
            unfold apply_soft_match_selection
            simp [h1f, h2f]
          rw [hout] at happ
          obtain ⟨hres, harts⟩ := Prod.mk.injEq .. ▸ (Except.ok.inj happ)
          subst harts
          simp only [List.mem_cons, List.not_mem_nil, or_false, reduceCtorEq, false_or,
            or_false] at hmem
          rw [Artifact.matrix.injEq] at hmem
          subst hmem
          simp

/-- Claim C1, witness: one eligible config with samples ["S2", "S1"] gives the
sorted common list ["S1", "S2"], which labels the rows of a hard-match matrix. -/
theorem claim1_witness :
    (hardMatchExpr [] ⟨[], []⟩ ["S1", "S2"]).map Prod.fst = ["S1", "S2"] ∧
    List.Sorted strLe ["S1", "S2"] := by
  have h := claim1_rows_indexed_by_common_samples [⟨"a", "gene", false, ["S2", "S1"]⟩]
    ["S1", "S2"] (by rfl)
  exact ⟨(h.2.2.2.1 [] ⟨[], []⟩).1, h.1⟩

end BMG
